import Mathlib

/-!
# ompipe: the pipe output action of rsyslog (`tools/ompipe.c`)

A shallow embedding of the pipe-handle state machine of `tools/ompipe.c`:
`createInstance`, `preparePipe`, `writePipe`, `doAction`, `doHUP` and
`freeInstance`, over the two mutable fields of `instanceData` (`fd`,
`bHadError`).

The operating system is an explicit parameter: every call of `writePipe`
performs at most one `open` and at most one `write`, so the answers of
these two system calls are handed to the call as an `OsResp`.  Every system
call and every `errmsg.LogError` call the code performs is recorded, in
program order, in a trace of `Event`s.  `DBGPRINTF`/`dbgprintf` only print
debug text and are left out.
-/

namespace Ompipe

/-! ## Machine integers -/

/-- Conversion of a C `int` to `short` (16 bit, two's complement), as done
by the assignment `pData->fd = open(...)`: the value is reduced modulo
`2^16` into `-32768 .. 32767` (the result C leaves to the implementation;
gcc and clang define it so). -/
def toShort (x : Int) : Int := (x + 32768) % 65536 - 32768

/-- The largest value of `short`. -/
def SHRT_MAX : Int := 32767

/-- The `errno` value of a non-blocking write on a full pipe (the value of
Linux; no statement below depends on the number). -/
def EAGAIN : Int := 11

/-- The return codes of `rsRetVal` that `ompipe.c` names. -/
inductive rsRetVal where
  | RS_RET_OK
  | RS_RET_SUSPENDED
  | RS_RET_NO_FILE_ACCESS
  | RS_RET_MISSING_CNFPARAMS
  | RS_RET_CONFLINE_UNPROCESSED
  deriving DecidableEq

/-- The second argument of `errmsg.LogError`: `RS_RET_NO_FILE_ACCESS` in
`preparePipe`, `NO_ERRCODE` in `writePipe`. -/
inductive LogCode where
  | RS_RET_NO_FILE_ACCESS
  | NO_ERRCODE
  deriving DecidableEq

/-- The struct `instanceData`: `fd` is a `short` (kept as an `Int` that the
code only ever assigns `-1` or a `toShort` value), `bHadError` an `sbool`. -/
structure instanceData where
  pipe : Option String
  tplName : Option String
  fd : Int
  bHadError : Bool
  deriving DecidableEq

/-- What the operating system answers during one call of `writePipe`:
`openRet` is the `int` returned by `open` (if it is called), `writeRet` the
value left in `int iLenWritten` by `write` (if it is called) and
`writeErrno` the value of `errno` after that `write`. -/
structure OsResp where
  openRet : Int
  writeRet : Int
  writeErrno : Int
  deriving DecidableEq

/-- The observable actions of the module, in program order. -/
inductive Event where
  | sysOpen (path : Option String)
  | sysWrite (fd : Int) (buf : List Nat)
  | sysClose (fd : Int)
  | LogError (code : LogCode) (pipe : Option String)
  deriving DecidableEq

/-- Result of one entry point: the `iRet` value, the instance data after
the call and the actions performed. -/
structure Result where
  iRet : rsRetVal
  pData : instanceData
  trace : List Event
  deriving DecidableEq

/-! ## The code -/

/-- The function `createInstance` (lines 184-189); the surrounding macro allocates the
struct zero-filled, so `tplName` is `NULL`. -/
def createInstance : instanceData :=
  { pipe := none, tplName := none, fd := -1, bHadError := false }

/-- The function `preparePipe` (lines 122-139).  `iRet` is never assigned after `DEFiRet`,
so the function returns `RS_RET_OK` on every path. -/
def preparePipe (openRet : Int) (pData : instanceData) : Result :=
  let ev := [Event.sysOpen pData.pipe]
  let pData := { pData with fd := toShort openRet }
  if pData.fd < 0 then
    let pData := { pData with fd := -1 }
    if !pData.bHadError then
      { iRet := rsRetVal.RS_RET_OK,
        pData := { pData with bHadError := true },
        trace := ev ++ [Event.LogError LogCode.RS_RET_NO_FILE_ACCESS pData.pipe] }
    else
      { iRet := rsRetVal.RS_RET_OK, pData := pData, trace := ev }
  else
    { iRet := rsRetVal.RS_RET_OK, pData := pData, trace := ev }

/-- Lines 160-180 of `writePipe`: the `write` call and the classification
of its result; `ev` holds the actions performed so far in this call. -/
def writePipeTail (ppString : List Nat) (os : OsResp) (pData : instanceData)
    (ev : List Event) : Result :=
  let iLenWritten := os.writeRet
  let ev := ev ++ [Event.sysWrite pData.fd ppString]
  if iLenWritten < 0 then
    let e := os.writeErrno
    if e = EAGAIN then
      { iRet := rsRetVal.RS_RET_SUSPENDED, pData := pData, trace := ev }
    else
      { iRet := rsRetVal.RS_RET_SUSPENDED,
        pData := { pData with fd := -1 },
        trace := ev ++ [Event.sysClose pData.fd, Event.LogError LogCode.NO_ERRCODE pData.pipe] }
  else
    { iRet := rsRetVal.RS_RET_OK, pData := pData, trace := ev }

/-- The function `writePipe` (lines 146-181). -/
def writePipe (ppString : List Nat) (os : OsResp) (pData : instanceData) : Result :=
  if pData.fd = -1 then
    let r := preparePipe os.openRet pData
    let iRetLocal := r.iRet
    if iRetLocal ≠ rsRetVal.RS_RET_OK ∨ r.pData.fd = -1 then
      { iRet := rsRetVal.RS_RET_SUSPENDED, pData := r.pData, trace := r.trace }
    else
      writePipeTail ppString os r.pData r.trace
  else
    writePipeTail ppString os pData []

/-- The entry point `doAction` (lines 204-208). -/
def doAction (ppString : List Nat) (os : OsResp) (pData : instanceData) : Result :=
  writePipe ppString os pData

/-- The entry point `doHUP` (lines 282-288). -/
def doHUP (pData : instanceData) : Result :=
  if pData.fd ≠ -1 then
    { iRet := rsRetVal.RS_RET_OK,
      pData := { pData with fd := -1 },
      trace := [Event.sysClose pData.fd] }
  else
    { iRet := rsRetVal.RS_RET_OK, pData := pData, trace := [] }

/-- The entry point `freeInstance` (lines 192-197): the system calls
performed at teardown (`free` of the path is not an observable action). -/
def freeInstance (pData : instanceData) : List Event :=
  if pData.fd ≠ -1 then [Event.sysClose pData.fd] else []

/-! ## Sequences of calls -/

/-- One call of the host into the action. -/
inductive Call where
  | write (ppString : List Nat) (os : OsResp)
  | hup
  deriving DecidableEq

/-- Execute one call. -/
def Call.exec : Call → instanceData → Result
  | Call.write ppString os, pData => doAction ppString os pData
  | Call.hup, pData => doHUP pData

/-- The results of a sequence of calls, one per call, in order. -/
def runCalls : instanceData → List Call → List Result
  | _, [] => []
  | pData, c :: cs => c.exec pData :: runCalls (c.exec pData).pData cs

/-- The instance data after a sequence of calls. -/
def finalState : instanceData → List Call → instanceData
  | pData, [] => pData
  | pData, c :: cs => finalState (c.exec pData).pData cs

/-- All actions of a sequence of calls, in order. -/
def fullTrace : instanceData → List Call → List Event
  | _, [] => []
  | pData, c :: cs => (c.exec pData).trace ++ fullTrace (c.exec pData).pData cs

/-! ## Observations on traces -/

/-- Is the action an error report? -/
def Event.isReport : Event → Bool
  | Event.LogError _ _ => true
  | _ => false

/-- Is the action the report of a failed open? -/
def Event.isOpenReport : Event → Bool
  | Event.LogError LogCode.RS_RET_NO_FILE_ACCESS _ => true
  | _ => false

/-- Is the action a `write` call? -/
def Event.isWrite : Event → Bool
  | Event.sysWrite _ _ => true
  | _ => false

/-- Number of error reports in a trace. -/
def reportCount (t : List Event) : Nat := t.countP Event.isReport

/-- Number of reports of a failed open in a trace. -/
def openReportCount (t : List Event) : Nat := t.countP Event.isOpenReport

/-- The instance right after configuration: `createInstance`, then the
assignments of `pipe` and `tplName` of `newActInst`. -/
def newInstance (pipe : Option String) (tplName : Option String) : instanceData :=
  { createInstance with pipe := pipe, tplName := tplName }

/-- The result code of the last `write` call of a sequence, `acc` if the
sequence has none. -/
def lastWriteRet : instanceData → List Call → Option rsRetVal → Option rsRetVal
  | _, [], acc => acc
  | pData, Call.write ppString os :: cs, _ =>
      lastWriteRet (doAction ppString os pData).pData cs (some (doAction ppString os pData).iRet)
  | pData, Call.hup :: cs, acc => lastWriteRet (doHUP pData).pData cs acc

/-! ## Concrete inputs -/

/-- The message `hello` followed by a newline, as bytes. -/
def msgHello : List Nat := [104, 101, 108, 108, 111, 10]

/-- A configured instance that has not been used yet. -/
def fifo : instanceData := newInstance (some "/tmp/testfifo") none

/-- The same instance with the pipe open on descriptor 3. -/
def fifoOpen : instanceData := { fifo with fd := 3 }

/-- The `open` call fails. -/
def osOpenFails : OsResp := { openRet := -1, writeRet := -1, writeErrno := 2 }

/-- Descriptor 3 is returned and the whole message is accepted. -/
def osGood : OsResp := { openRet := 3, writeRet := 6, writeErrno := 0 }

/-- Descriptor 3 is returned and one byte of the message is accepted. -/
def osShort : OsResp := { openRet := 3, writeRet := 1, writeErrno := 0 }

/-- Descriptor 3 is returned and the pipe is full. -/
def osFull : OsResp := { openRet := 3, writeRet := -1, writeErrno := EAGAIN }

/-- Descriptor 32768 is returned and the whole message would be accepted. -/
def osHighFd : OsResp := { openRet := 32768, writeRet := 6, writeErrno := 0 }

/-- Descriptor 65539 is returned and the whole message would be accepted. -/
def osWrapFd : OsResp := { openRet := 65539, writeRet := 6, writeErrno := 0 }

/-! ## Basic facts about single calls -/

theorem toShort_neg_one : toShort (-1) = -1 := by decide

theorem toShort_of_fits (d : Int) (h0 : 0 ≤ d) (h1 : d ≤ SHRT_MAX) : toShort d = d := by
  unfold SHRT_MAX at h1
  unfold toShort
  omega

/-- An open that fails on an unopened instance: nothing but the `open` call
and, if the flag is not yet set, one report. -/
theorem writePipe_open_fails (ppString : List Nat) (os : OsResp) (pData : instanceData)
    (hfd : pData.fd = -1) (ho : os.openRet = -1) :
    writePipe ppString os pData =
      { iRet := rsRetVal.RS_RET_SUSPENDED,
        pData := { pData with bHadError := true },
        trace := Event.sysOpen pData.pipe ::
          (if pData.bHadError then []
           else [Event.LogError LogCode.RS_RET_NO_FILE_ACCESS pData.pipe]) } := by
  obtain ⟨p, t, fd, b⟩ := pData
  simp only at hfd
  subst hfd
  cases b <;> simp [writePipe, preparePipe, ho, toShort_neg_one]

/-- The `write` call is issued exactly when the handle is open at entry or
the `open` of this call leaves a non-negative `short` in `fd`. -/
theorem writePipe_issues_write_iff (ppString : List Nat) (os : OsResp) (pData : instanceData) :
    (writePipe ppString os pData).trace.any Event.isWrite = true ↔
      (pData.fd ≠ -1 ∨ 0 ≤ toShort os.openRet) := by
  obtain ⟨p, t, fd, b⟩ := pData
  by_cases hfd : fd = -1
  · subst hfd
    by_cases ho : toShort os.openRet < 0
    · have hno : ¬ (0 ≤ toShort os.openRet) := by omega
      cases b <;> simp [writePipe, preparePipe, ho, hno, Event.isWrite]
    · have hyes : 0 ≤ toShort os.openRet := by omega
      have hne : toShort os.openRet ≠ -1 := by omega
      by_cases hw : os.writeRet < 0 <;> by_cases he : os.writeErrno = EAGAIN <;>
        simp [writePipe, preparePipe, writePipeTail, ho, hyes, hne, hw, he, Event.isWrite]
  · by_cases hw : os.writeRet < 0 <;> by_cases he : os.writeErrno = EAGAIN <;>
      simp [writePipe, writePipeTail, hfd, hw, he, Event.isWrite]

/-- The result code of `writePipe`: `RS_RET_OK` exactly when the `write`
call is issued and returns a non-negative count, `RS_RET_SUSPENDED`
otherwise. -/
theorem writePipe_iRet (ppString : List Nat) (os : OsResp) (pData : instanceData) :
    (writePipe ppString os pData).iRet =
      (if (pData.fd ≠ -1 ∨ 0 ≤ toShort os.openRet) ∧ 0 ≤ os.writeRet
        then rsRetVal.RS_RET_OK else rsRetVal.RS_RET_SUSPENDED) := by
  obtain ⟨p, t, fd, b⟩ := pData
  by_cases hfd : fd = -1
  · subst hfd
    by_cases ho : toShort os.openRet < 0
    · have hno : ¬ (0 ≤ toShort os.openRet) := by omega
      cases b <;> simp [writePipe, preparePipe, ho, hno]
    · have hyes : 0 ≤ toShort os.openRet := by omega
      have hne : toShort os.openRet ≠ -1 := by omega
      by_cases hw : os.writeRet < 0
      · have hw2 : ¬ (0 ≤ os.writeRet) := by omega
        by_cases he : os.writeErrno = EAGAIN <;>
          simp [writePipe, preparePipe, writePipeTail, ho, hyes, hne, hw, hw2, he]
      · have hw2 : 0 ≤ os.writeRet := by omega
        simp [writePipe, preparePipe, writePipeTail, ho, hyes, hne, hw, hw2]
  · by_cases hw : os.writeRet < 0
    · have hw2 : ¬ (0 ≤ os.writeRet) := by omega
      by_cases he : os.writeErrno = EAGAIN <;>
        simp [writePipe, writePipeTail, hfd, hw, hw2, he]
    · have hw2 : 0 ≤ os.writeRet := by omega
      simp [writePipe, writePipeTail, hfd, hw, hw2]

/-- A call on an unopened handle whose `open` returns a descriptor that
fits the `short` field: the handle holds the descriptor and the `write`
part runs. -/
theorem writePipe_of_opened (ppString : List Nat) (os : OsResp) (pData : instanceData)
    (hfd : pData.fd = -1) (h0 : 0 ≤ os.openRet) (h1 : os.openRet ≤ SHRT_MAX) :
    writePipe ppString os pData =
      writePipeTail ppString os { pData with fd := os.openRet } [Event.sysOpen pData.pipe] := by
  have hs := toShort_of_fits os.openRet h0 h1
  have h2 : ¬ (os.openRet < 0) := by omega
  have h3 : os.openRet ≠ -1 := by omega
  simp [writePipe, preparePipe, hfd, hs, h2, h3]

/-- On an unopened handle every call starts with `open`. -/
theorem writePipe_opens_first (ppString : List Nat) (os : OsResp) (pData : instanceData)
    (hfd : pData.fd = -1) :
    ∃ rest, (writePipe ppString os pData).trace = Event.sysOpen pData.pipe :: rest := by
  obtain ⟨p, t, fd, b⟩ := pData
  simp only at hfd
  subst hfd
  by_cases ho : toShort os.openRet < 0
  · cases b <;> simp [writePipe, preparePipe, ho]
  · have hne : toShort os.openRet ≠ -1 := by omega
    by_cases hw : os.writeRet < 0 <;> by_cases he : os.writeErrno = EAGAIN <;>
      simp [writePipe, preparePipe, writePipeTail, ho, hne, hw, he]

/-- A call that reaches its `write`: the handle at entry if it is open,
otherwise the `short` that `preparePipe` stored, is what the `write` part
runs on. -/
theorem writePipe_reaches_write (ppString : List Nat) (os : OsResp) (pData : instanceData)
    (hopen : pData.fd ≠ -1 ∨ 0 ≤ toShort os.openRet) :
    writePipe ppString os pData =
      writePipeTail ppString os
        { pData with fd := if pData.fd = -1 then toShort os.openRet else pData.fd }
        (if pData.fd = -1 then [Event.sysOpen pData.pipe] else []) := by
  by_cases hfd : pData.fd = -1
  · have ho : 0 ≤ toShort os.openRet := by
      rcases hopen with h | h
      · exact absurd hfd h
      · exact h
    have ho2 : ¬ (toShort os.openRet < 0) := by omega
    have hne : toShort os.openRet ≠ -1 := by omega
    simp [writePipe, preparePipe, hfd, ho2, hne]
  · simp [writePipe, hfd]

/-! ## The result code of `writePipe` -/

/-- C1: for every instance state, message and answers of `open` and
`write`, `doAction` (that is `writePipe`) returns `RS_RET_OK` or
`RS_RET_SUSPENDED` and nothing else.  It returns `RS_RET_SUSPENDED` whenever
the `open` attempt fails and whenever the `write` answer is an error.  The
`write` call is issued exactly when the handle is open at entry or the
`open` of this call leaves it open (in particular when `open` returns a
descriptor `0 .. SHRT_MAX`), and when it is issued and accepts the whole
message the result is `RS_RET_OK`. -/
theorem doAction_ok_or_suspended (ppString : List Nat) (os : OsResp) (pData : instanceData) :
    ((doAction ppString os pData).iRet = rsRetVal.RS_RET_OK ∨
      (doAction ppString os pData).iRet = rsRetVal.RS_RET_SUSPENDED) ∧
    (pData.fd = -1 → os.openRet = -1 →
      (doAction ppString os pData).iRet = rsRetVal.RS_RET_SUSPENDED) ∧
    (os.writeRet < 0 → (doAction ppString os pData).iRet = rsRetVal.RS_RET_SUSPENDED) ∧
    ((doAction ppString os pData).trace.any Event.isWrite = true ↔
      (pData.fd ≠ -1 ∨ 0 ≤ toShort os.openRet)) ∧
    ((pData.fd ≠ -1 ∨ 0 ≤ toShort os.openRet) →
      os.writeRet = (ppString.length : Int) →
      (doAction ppString os pData).iRet = rsRetVal.RS_RET_OK) ∧
    (pData.fd = -1 → 0 ≤ os.openRet → os.openRet ≤ SHRT_MAX →
      os.writeRet = (ppString.length : Int) →
      (doAction ppString os pData).iRet = rsRetVal.RS_RET_OK ∧
      (doAction ppString os pData).trace =
        [Event.sysOpen pData.pipe, Event.sysWrite os.openRet ppString]) ∧
    ((doAction ppString os pData).trace.any Event.isWrite = true →
      os.writeRet = (ppString.length : Int) →
      (doAction ppString os pData).iRet = rsRetVal.RS_RET_OK) := by
  unfold doAction
  have hok : (pData.fd ≠ -1 ∨ 0 ≤ toShort os.openRet) →
      os.writeRet = (ppString.length : Int) →
      (writePipe ppString os pData).iRet = rsRetVal.RS_RET_OK := by
    intro hopen hw
    have hw2 : 0 ≤ os.writeRet := by omega
    rw [writePipe_iRet, if_pos ⟨hopen, hw2⟩]
  refine ⟨?_, ?_, ?_, writePipe_issues_write_iff ppString os pData, hok, ?_, ?_⟩
  · rw [writePipe_iRet]
    split <;> simp
  · intro hfd ho
    rw [writePipe_open_fails ppString os pData hfd ho]
  · intro hw
    have hw2 : ¬ (0 ≤ os.writeRet) := by omega
    rw [writePipe_iRet]
    simp [hw2]
  · intro hfd h0 h1 hw
    have hw2 : ¬ (os.writeRet < 0) := by omega
    rw [writePipe_of_opened ppString os pData hfd h0 h1]
    simp [writePipeTail, hw2]
  · intro hiss hw
    exact hok ((writePipe_issues_write_iff ppString os pData).mp hiss) hw

/-- Witness for C1: on an unused instance an `open` that fails gives
`RS_RET_SUSPENDED`; the whole message `hello` accepted gives `RS_RET_OK`,
on the open instance and on the unused instance that opens in the call. -/
theorem doAction_ok_or_suspended_witness :
    (doAction msgHello osOpenFails fifo).iRet = rsRetVal.RS_RET_SUSPENDED ∧
    (doAction msgHello osGood fifoOpen).iRet = rsRetVal.RS_RET_OK ∧
    ((doAction msgHello osGood fifo).iRet = rsRetVal.RS_RET_OK ∧
      (doAction msgHello osGood fifo).trace =
        [Event.sysOpen fifo.pipe, Event.sysWrite osGood.openRet msgHello]) :=
  ⟨(doAction_ok_or_suspended msgHello osOpenFails fifo).2.1 (by decide) (by decide),
    (doAction_ok_or_suspended msgHello osGood fifoOpen).2.2.2.2.1 (Or.inl (by decide))
      (by decide),
    (doAction_ok_or_suspended msgHello osGood fifo).2.2.2.2.2.1 (by decide) (by decide)
      (by decide) (by decide)⟩

/-- C2, counterexample: the statement "whenever `writePipe` returns
`RS_RET_OK` the returned count equals the message length, and a short count
returned by an issued `write` gives `RS_RET_SUSPENDED`" is false.  On the
open instance `fifoOpen`, with the six byte message `msgHello` and a `write`
that accepts one byte, the code returns `RS_RET_OK`. -/
theorem writePipe_short_count_counterexample :
    ¬ (∀ (ppString : List Nat) (os : OsResp) (pData : instanceData),
        ((writePipe ppString os pData).iRet = rsRetVal.RS_RET_OK →
          os.writeRet = (ppString.length : Int)) ∧
        ((writePipe ppString os pData).trace.any Event.isWrite = true →
          0 ≤ os.writeRet → os.writeRet < (ppString.length : Int) →
          (writePipe ppString os pData).iRet = rsRetVal.RS_RET_SUSPENDED)) := by
  intro h
  have h1 := (h msgHello osShort fifoOpen).1
  have h2 : (writePipe msgHello osShort fifoOpen).iRet = rsRetVal.RS_RET_OK := by decide
  have h3 := h1 h2
  revert h3
  decide

/-- C2, amended: `writePipe` returns `RS_RET_OK` exactly when the `write`
call is issued (the handle is open at entry, or the `open` of this call
leaves it open) and returns a non-negative count, whatever the count.  So it
returns `RS_RET_OK` when the whole message is accepted, and for every short
count `n` with `0 ≤ n < length` returned by the `write` call it returns
`RS_RET_OK` as well: the only actions of the call are the `open` (if the
handle was unopened) and the `write` on the handle, no report is emitted,
the handle stays open on the descriptor written to and the flag and the
path are unchanged. -/
theorem writePipe_ok_iff_nonneg_count (ppString : List Nat) (os : OsResp)
    (pData : instanceData) :
    ((writePipe ppString os pData).iRet = rsRetVal.RS_RET_OK ↔
      ((pData.fd ≠ -1 ∨ 0 ≤ toShort os.openRet) ∧ 0 ≤ os.writeRet)) ∧
    ((writePipe ppString os pData).trace.any Event.isWrite = true ↔
      (pData.fd ≠ -1 ∨ 0 ≤ toShort os.openRet)) ∧
    ((pData.fd ≠ -1 ∨ 0 ≤ toShort os.openRet) → 0 ≤ os.writeRet →
      writePipe ppString os pData =
        { iRet := rsRetVal.RS_RET_OK,
          pData := { pData with fd := if pData.fd = -1 then toShort os.openRet else pData.fd },
          trace := (if pData.fd = -1 then [Event.sysOpen pData.pipe] else []) ++
            [Event.sysWrite (if pData.fd = -1 then toShort os.openRet else pData.fd)
              ppString] } ∧
      (writePipe ppString os pData).pData.fd ≠ -1 ∧
      reportCount (writePipe ppString os pData).trace = 0) ∧
    ((pData.fd ≠ -1 ∨ 0 ≤ toShort os.openRet) →
      0 ≤ os.writeRet → os.writeRet < (ppString.length : Int) →
      (writePipe ppString os pData).iRet = rsRetVal.RS_RET_OK ∧
      (writePipe ppString os pData).pData.fd =
        (if pData.fd = -1 then toShort os.openRet else pData.fd) ∧
      (writePipe ppString os pData).pData.fd ≠ -1 ∧
      (writePipe ppString os pData).pData.bHadError = pData.bHadError ∧
      reportCount (writePipe ppString os pData).trace = 0) := by
  have hiff := writePipe_issues_write_iff ppString os pData
  have hret := writePipe_iRet ppString os pData
  have hfull : (pData.fd ≠ -1 ∨ 0 ≤ toShort os.openRet) → 0 ≤ os.writeRet →
      writePipe ppString os pData =
        { iRet := rsRetVal.RS_RET_OK,
          pData := { pData with fd := if pData.fd = -1 then toShort os.openRet else pData.fd },
          trace := (if pData.fd = -1 then [Event.sysOpen pData.pipe] else []) ++
            [Event.sysWrite (if pData.fd = -1 then toShort os.openRet else pData.fd)
              ppString] } ∧
      (writePipe ppString os pData).pData.fd ≠ -1 ∧
      reportCount (writePipe ppString os pData).trace = 0 := by
    intro hopen hw
    have hw2 : ¬ (os.writeRet < 0) := by omega
    have key := writePipe_reaches_write ppString os pData hopen
    simp only [writePipeTail, hw2, if_false] at key
    rw [key]
    refine ⟨rfl, ?_, ?_⟩
    · by_cases hfd : pData.fd = -1
      · have ho : 0 ≤ toShort os.openRet := by
          rcases hopen with h | h
          · exact absurd hfd h
          · exact h
        simp only [hfd, if_true]
        omega
      · simp only [hfd, if_false]
        exact hfd
    · by_cases hfd : pData.fd = -1 <;> simp [hfd, reportCount, Event.isReport]
  refine ⟨?_, hiff, hfull, ?_⟩
  · rw [hret]
    by_cases hc : (pData.fd ≠ -1 ∨ 0 ≤ toShort os.openRet) ∧ 0 ≤ os.writeRet
    · rw [if_pos hc]
      simp only [true_iff]
      exact hc
    · rw [if_neg hc]
      simp only [false_iff, reduceCtorEq]
      exact hc
  · intro hopen hw _
    obtain ⟨h1, h2, h3⟩ := hfull hopen hw
    refine ⟨?_, ?_, h2, ?_, h3⟩
    · rw [h1]
    · rw [h1]
    · rw [h1]

/-- Witness for the amended C2: the unused instance opens on descriptor 3
in this call and one byte of `msgHello` is accepted: `RS_RET_OK`, the handle
is 3 afterwards. -/
theorem writePipe_ok_iff_nonneg_count_witness :
    (writePipe msgHello osShort fifo).iRet = rsRetVal.RS_RET_OK ∧
    (writePipe msgHello osShort fifo).pData.fd =
      (if fifo.fd = -1 then toShort osShort.openRet else fifo.fd) ∧
    (writePipe msgHello osShort fifo).pData.fd ≠ -1 ∧
    (writePipe msgHello osShort fifo).pData.bHadError = fifo.bHadError ∧
    reportCount (writePipe msgHello osShort fifo).trace = 0 :=
  (writePipe_ok_iff_nonneg_count msgHello osShort fifo).2.2.2 (Or.inr (by decide))
    (by decide) (by decide)

/-! ## Backpressure, fatal write errors and hang-up -/

/-- C4: on an instance whose handle is open, a `write` that fails with
`EAGAIN` makes `writePipe` return `RS_RET_SUSPENDED`; the only action of the
call is that `write` on the handle (no report, no `close`, no `open`) and the
instance data, handle and flag included, is unchanged.  A following call with
the same message whose `write` succeeds returns `RS_RET_OK`, and its only
action is the `write` on the same handle. -/
theorem writePipe_eagain_keeps_handle (ppString : List Nat) (os os2 : OsResp)
    (pData : instanceData) (d : Int) (hd : pData.fd = d) (hopen : d ≠ -1)
    (hw : os.writeRet < 0) (he : os.writeErrno = EAGAIN) (hw2 : 0 ≤ os2.writeRet) :
    (writePipe ppString os pData).iRet = rsRetVal.RS_RET_SUSPENDED ∧
    (writePipe ppString os pData).trace = [Event.sysWrite d ppString] ∧
    (writePipe ppString os pData).pData = pData ∧
    (writePipe ppString os2 (writePipe ppString os pData).pData).iRet = rsRetVal.RS_RET_OK ∧
    (writePipe ppString os2 (writePipe ppString os pData).pData).trace =
      [Event.sysWrite d ppString] ∧
    (writePipe ppString os2 (writePipe ppString os pData).pData).pData = pData := by
  subst hd
  have hw3 : ¬ (os2.writeRet < 0) := by omega
  have h1 : writePipe ppString os pData =
      { iRet := rsRetVal.RS_RET_SUSPENDED, pData := pData,
        trace := [Event.sysWrite pData.fd ppString] } := by
    simp [writePipe, writePipeTail, hopen, hw, he]
  have h2 : writePipe ppString os2 pData =
      { iRet := rsRetVal.RS_RET_OK, pData := pData,
        trace := [Event.sysWrite pData.fd ppString] } := by
    simp [writePipe, writePipeTail, hopen, hw3]
  rw [h1]
  simp only [h2, and_self]

/-- Witness for C4: the pipe open on descriptor 3 is full, then drained. -/
theorem writePipe_eagain_keeps_handle_witness :
    (writePipe msgHello osFull fifoOpen).iRet = rsRetVal.RS_RET_SUSPENDED ∧
    (writePipe msgHello osFull fifoOpen).trace = [Event.sysWrite 3 msgHello] ∧
    (writePipe msgHello osFull fifoOpen).pData = fifoOpen ∧
    (writePipe msgHello osGood (writePipe msgHello osFull fifoOpen).pData).iRet =
      rsRetVal.RS_RET_OK ∧
    (writePipe msgHello osGood (writePipe msgHello osFull fifoOpen).pData).trace =
      [Event.sysWrite 3 msgHello] ∧
    (writePipe msgHello osGood (writePipe msgHello osFull fifoOpen).pData).pData = fifoOpen :=
  writePipe_eagain_keeps_handle msgHello osFull osGood fifoOpen 3 (by decide) (by decide)
    (by decide) (by decide) (by decide)

/-- C6: for every instance state `doHUP` emits no report and leaves the
path and the flag unchanged; on a handle open on `d` its only action is
`close` on `d` and it sets the handle to `-1`; on an unopened handle it does
nothing and changes nothing, so a second `doHUP` is without effect; after
`doHUP` the next `writePipe` starts with `open`, before any `write`. -/
theorem doHUP_closes_silently (pData : instanceData) :
    reportCount (doHUP pData).trace = 0 ∧
    (doHUP pData).pData.pipe = pData.pipe ∧
    (doHUP pData).pData.bHadError = pData.bHadError ∧
    (pData.fd ≠ -1 →
      (doHUP pData).trace = [Event.sysClose pData.fd] ∧ (doHUP pData).pData.fd = -1) ∧
    (pData.fd = -1 → (doHUP pData).trace = [] ∧ (doHUP pData).pData = pData) ∧
    ((doHUP (doHUP pData).pData).trace = [] ∧
      (doHUP (doHUP pData).pData).pData = (doHUP pData).pData) ∧
    (∀ (ppString : List Nat) (os : OsResp), ∃ rest,
      (writePipe ppString os (doHUP pData).pData).trace = Event.sysOpen pData.pipe :: rest) := by
  by_cases hfd : pData.fd = -1
  · have h : doHUP pData = { iRet := rsRetVal.RS_RET_OK, pData := pData, trace := [] } := by
      simp [doHUP, hfd]
    refine ⟨?_, ?_, ?_, ?_, ?_, ?_, ?_⟩
    · simp [h, reportCount]
    · simp [h]
    · simp [h]
    · intro hne
      exact absurd hfd hne
    · intro _
      simp [h]
    · simp [h]
    · intro ppString os
      rw [h]
      exact writePipe_opens_first ppString os pData hfd
  · have h : doHUP pData =
        { iRet := rsRetVal.RS_RET_OK,
          pData := { pData with fd := -1 },
          trace := [Event.sysClose pData.fd] } := by
      simp [doHUP, hfd]
    have h2 : doHUP { pData with fd := -1 } =
        { iRet := rsRetVal.RS_RET_OK,
          pData := { pData with fd := -1 },
          trace := [] } := by
      simp [doHUP]
    refine ⟨?_, ?_, ?_, ?_, ?_, ?_, ?_⟩
    · simp [h, reportCount, Event.isReport]
    · simp [h]
    · simp [h]
    · intro _
      simp [h]
    · intro he
      exact absurd he hfd
    · simp [h, h2]
    · intro ppString os
      rw [h]
      exact writePipe_opens_first ppString os { pData with fd := -1 } rfl

/-- Witness for C6: hang-up on the instance open on descriptor 3. -/
theorem doHUP_closes_silently_witness :
    (doHUP fifoOpen).trace = [Event.sysClose fifoOpen.fd] ∧ (doHUP fifoOpen).pData.fd = -1 :=
  (doHUP_closes_silently fifoOpen).2.2.2.1 (by decide)

/-! ## Sequences of calls: the report latch -/

theorem reportCount_append (a b : List Event) :
    reportCount (a ++ b) = reportCount a + reportCount b := by
  simp [reportCount, List.countP_append]

theorem openReportCount_append (a b : List Event) :
    openReportCount (a ++ b) = openReportCount a + openReportCount b := by
  simp [openReportCount, List.countP_append]

/-- One call of `writePipe`: the open reports of the call and the flag after
it account for the flag before it. -/
theorem writePipe_openReport_balance (ppString : List Nat) (os : OsResp)
    (pData : instanceData) :
    openReportCount (writePipe ppString os pData).trace +
        (if (writePipe ppString os pData).pData.bHadError then 0 else 1) =
      (if pData.bHadError then 0 else 1) := by
  obtain ⟨p, t, fd, b⟩ := pData
  by_cases hfd : fd = -1
  · subst hfd
    by_cases ho : toShort os.openRet < 0
    · cases b <;> simp [writePipe, preparePipe, ho, openReportCount, Event.isOpenReport]
    · have hne : toShort os.openRet ≠ -1 := by omega
      by_cases hw : os.writeRet < 0 <;> by_cases he : os.writeErrno = EAGAIN <;>
        simp [writePipe, preparePipe, writePipeTail, ho, hne, hw, he, openReportCount,
          Event.isOpenReport]
  · by_cases hw : os.writeRet < 0 <;> by_cases he : os.writeErrno = EAGAIN <;>
      simp [writePipe, writePipeTail, hfd, hw, he, openReportCount, Event.isOpenReport]

/-- The entry point `doHUP` emits no report and keeps the flag. -/
theorem doHUP_silent (pData : instanceData) :
    reportCount (doHUP pData).trace = 0 ∧ openReportCount (doHUP pData).trace = 0 ∧
      (doHUP pData).pData.bHadError = pData.bHadError := by
  by_cases hfd : pData.fd = -1 <;>
    simp [doHUP, hfd, reportCount, openReportCount, Event.isReport, Event.isOpenReport]

/-- Over a sequence of calls: the open reports of the sequence and the flag
after it account for the flag before it. -/
theorem fullTrace_openReport_balance (calls : List Call) (pData : instanceData) :
    openReportCount (fullTrace pData calls) +
        (if (finalState pData calls).bHadError then 0 else 1) =
      (if pData.bHadError then 0 else 1) := by
  induction calls generalizing pData with
  | nil => simp [fullTrace, finalState, openReportCount]
  | cons c cs ih =>
    have hstep : openReportCount (c.exec pData).trace +
        (if (c.exec pData).pData.bHadError then 0 else 1) =
        (if pData.bHadError then 0 else 1) := by
      cases c with
      | write ppString os => exact writePipe_openReport_balance ppString os pData
      | hup =>
        have h := doHUP_silent pData
        simp only [Call.exec, h.2.1, h.2.2, Nat.zero_add]
    have hrest := ih (c.exec pData).pData
    simp only [fullTrace, finalState, openReportCount_append]
    omega

/-- While the flag is set and every `open` fails, every call returns
`RS_RET_SUSPENDED`, issues no `write`, leaves the handle unopened and emits
no report. -/
theorem runCalls_open_fails_silent (calls : List Call) (pData : instanceData)
    (hfd : pData.fd = -1) (hb : pData.bHadError = true)
    (hall : ∀ c ∈ calls, ∃ ppString os, c = Call.write ppString os ∧ os.openRet = -1) :
    (∀ r ∈ runCalls pData calls,
      r.iRet = rsRetVal.RS_RET_SUSPENDED ∧ r.pData.fd = -1 ∧
        r.trace.any Event.isWrite = false ∧ reportCount r.trace = 0) ∧
    reportCount (fullTrace pData calls) = 0 := by
  induction calls generalizing pData with
  | nil => simp [runCalls, fullTrace, reportCount]
  | cons c cs ih =>
    obtain ⟨ppString, os, hc, ho⟩ := hall c (List.mem_cons_self c cs)
    subst hc
    have hstep := writePipe_open_fails ppString os pData hfd ho
    have hrest := ih (writePipe ppString os pData).pData (by rw [hstep]; exact hfd)
      (by rw [hstep]) (fun c hc => hall c (List.mem_cons_of_mem _ hc))
    have hhead : (writePipe ppString os pData).iRet = rsRetVal.RS_RET_SUSPENDED ∧
        (writePipe ppString os pData).pData.fd = -1 ∧
        (writePipe ppString os pData).trace.any Event.isWrite = false ∧
        reportCount (writePipe ppString os pData).trace = 0 := by
      rw [hstep]
      simp [hfd, hb, Event.isWrite, reportCount, Event.isReport]
    refine ⟨?_, ?_⟩
    · intro r hr
      simp only [runCalls, Call.exec, doAction, List.mem_cons] at hr
      rcases hr with hr | hr
      · rw [hr]
        exact hhead
      · exact hrest.1 r hr
    · simp only [fullTrace, Call.exec, doAction, reportCount_append, hhead.2.2.2, hrest.2]

/-- C3: on a freshly configured instance (handle `-1`, flag clear), for
every `n ≥ 1` and every sequence of `n` write calls whose `open` fails each
time: every call returns `RS_RET_SUSPENDED`, issues no `write` and leaves
the handle at `-1`; the `n` calls emit exactly one report in total, and it
is emitted by the first call. -/
theorem open_failures_report_once (pipe tplName : Option String) (n : Nat) (hn : 1 ≤ n)
    (calls : List Call) (hlen : calls.length = n)
    (hall : ∀ c ∈ calls, ∃ ppString os, c = Call.write ppString os ∧ os.openRet = -1) :
    (∀ r ∈ runCalls (newInstance pipe tplName) calls,
      r.iRet = rsRetVal.RS_RET_SUSPENDED ∧ r.pData.fd = -1 ∧
        r.trace.any Event.isWrite = false) ∧
    reportCount (fullTrace (newInstance pipe tplName) calls) = 1 ∧
    (∃ r rs, runCalls (newInstance pipe tplName) calls = r :: rs ∧
      reportCount r.trace = 1 ∧ ∀ q ∈ rs, reportCount q.trace = 0) := by
  cases calls with
  | nil =>
    simp only [List.length_nil] at hlen
    omega
  | cons c cs =>
    obtain ⟨ppString, os, hc, ho⟩ := hall c (List.mem_cons_self c cs)
    subst hc
    have hfd : (newInstance pipe tplName).fd = -1 := rfl
    have hstep := writePipe_open_fails ppString os (newInstance pipe tplName) hfd ho
    have hrest := runCalls_open_fails_silent cs
      (writePipe ppString os (newInstance pipe tplName)).pData (by rw [hstep]; exact hfd)
      (by rw [hstep]) (fun c hc => hall c (List.mem_cons_of_mem _ hc))
    have hhead : (writePipe ppString os (newInstance pipe tplName)).iRet =
          rsRetVal.RS_RET_SUSPENDED ∧
        (writePipe ppString os (newInstance pipe tplName)).pData.fd = -1 ∧
        (writePipe ppString os (newInstance pipe tplName)).trace.any Event.isWrite = false ∧
        reportCount (writePipe ppString os (newInstance pipe tplName)).trace = 1 := by
      rw [hstep]
      simp [newInstance, createInstance, Event.isWrite, reportCount, Event.isReport]
    refine ⟨?_, ?_, ?_⟩
    · intro r hr
      simp only [runCalls, Call.exec, doAction, List.mem_cons] at hr
      rcases hr with hr | hr
      · rw [hr]
        exact ⟨hhead.1, hhead.2.1, hhead.2.2.1⟩
      · have h := hrest.1 r hr
        exact ⟨h.1, h.2.1, h.2.2.1⟩
    · simp only [fullTrace, Call.exec, doAction, reportCount_append, hhead.2.2.2, hrest.2]
    · refine ⟨writePipe ppString os (newInstance pipe tplName),
        runCalls (writePipe ppString os (newInstance pipe tplName)).pData cs, ?_, hhead.2.2.2,
        ?_⟩
      · simp only [runCalls, Call.exec, doAction]
      · intro q hq
        exact (hrest.1 q hq).2.2.2

/-- Witness for C3: two consecutive calls while the pipe node is missing. -/
theorem open_failures_report_once_witness :
    (∀ r ∈ runCalls fifo [Call.write msgHello osOpenFails, Call.write msgHello osOpenFails],
      r.iRet = rsRetVal.RS_RET_SUSPENDED ∧ r.pData.fd = -1 ∧
        r.trace.any Event.isWrite = false) ∧
    reportCount
      (fullTrace fifo [Call.write msgHello osOpenFails, Call.write msgHello osOpenFails]) = 1 ∧
    (∃ r rs,
      runCalls fifo [Call.write msgHello osOpenFails, Call.write msgHello osOpenFails] = r :: rs ∧
      reportCount r.trace = 1 ∧ ∀ q ∈ rs, reportCount q.trace = 0) :=
  open_failures_report_once (some "/tmp/testfifo") none 2 (by decide)
    [Call.write msgHello osOpenFails, Call.write msgHello osOpenFails] rfl
    (by
      intro c hc
      simp only [List.mem_cons, List.mem_singleton, List.not_mem_nil, or_false, or_self] at hc
      exact ⟨msgHello, osOpenFails, hc, rfl⟩)

/-- C8, counterexample: "in every reachable state with the handle unopened
and the previous write returned `RS_RET_OK`, the first write whose `open`
fails emits one report" is false.  After an open failure (one report), a
successful write and a hang-up, the handle of `fifo` is unopened and the next
write whose `open` fails emits no report. -/
theorem open_failure_after_recovery_counterexample :
    ¬ (∀ (history : List Call) (ppString : List Nat) (os : OsResp),
        (finalState fifo history).fd = -1 →
        lastWriteRet fifo history none = some rsRetVal.RS_RET_OK →
        os.openRet = -1 →
        reportCount (writePipe ppString os (finalState fifo history)).trace = 1) ∧
    (runCalls fifo [Call.write msgHello osOpenFails, Call.write msgHello osGood, Call.hup,
        Call.write msgHello osOpenFails]).map
        (fun r => (r.iRet, r.pData.fd, reportCount r.trace)) =
      [(rsRetVal.RS_RET_SUSPENDED, -1, 1), (rsRetVal.RS_RET_OK, 3, 0),
        (rsRetVal.RS_RET_OK, -1, 0), (rsRetVal.RS_RET_SUSPENDED, -1, 0)] := by
  refine ⟨?_, by decide⟩
  intro h
  have h1 := h [Call.write msgHello osOpenFails, Call.write msgHello osGood, Call.hup]
    msgHello osOpenFails (by decide) (by decide) (by decide)
  revert h1
  decide

/-- C8, amended: in every state reachable from a freshly configured
instance in which the handle is unopened, a write whose `open` fails returns
`RS_RET_SUSPENDED` and emits one report exactly when no report of a failed
open was emitted before on this instance, and no report otherwise: only the
first open failure of the instance is reported. -/
theorem open_failure_reported_once_per_instance (pipe tplName : Option String)
    (history : List Call) (ppString : List Nat) (os : OsResp)
    (hfd : (finalState (newInstance pipe tplName) history).fd = -1)
    (ho : os.openRet = -1) :
    (writePipe ppString os (finalState (newInstance pipe tplName) history)).iRet =
      rsRetVal.RS_RET_SUSPENDED ∧
    reportCount (writePipe ppString os (finalState (newInstance pipe tplName) history)).trace =
      (if openReportCount (fullTrace (newInstance pipe tplName) history) = 0 then 1 else 0) := by
  have hbal := fullTrace_openReport_balance history (newInstance pipe tplName)
  have hb0 : (newInstance pipe tplName).bHadError = false := rfl
  rw [hb0] at hbal
  rw [writePipe_open_fails ppString os _ hfd ho]
  refine ⟨rfl, ?_⟩
  cases hb : (finalState (newInstance pipe tplName) history).bHadError
  · rw [hb] at hbal
    have h0 : openReportCount (fullTrace (newInstance pipe tplName) history) = 0 := by
      simpa using hbal
    simp [h0, reportCount, Event.isReport]
  · rw [hb] at hbal
    have h1 : openReportCount (fullTrace (newInstance pipe tplName) history) = 1 := by
      simpa using hbal
    simp [h1, reportCount, Event.isReport]

/-- Witness for the amended C8: the open failure after an earlier failure,
a recovery and a hang-up is silent. -/
theorem open_failure_reported_once_per_instance_witness :
    (writePipe msgHello osOpenFails (finalState (newInstance (some "/tmp/testfifo") none)
      [Call.write msgHello osOpenFails, Call.write msgHello osGood, Call.hup])).iRet =
      rsRetVal.RS_RET_SUSPENDED ∧
    reportCount (writePipe msgHello osOpenFails
      (finalState (newInstance (some "/tmp/testfifo") none)
        [Call.write msgHello osOpenFails, Call.write msgHello osGood, Call.hup])).trace =
      (if openReportCount (fullTrace (newInstance (some "/tmp/testfifo") none)
        [Call.write msgHello osOpenFails, Call.write msgHello osGood, Call.hup]) = 0
        then 1 else 0) :=
  open_failure_reported_once_per_instance (some "/tmp/testfifo") none
    [Call.write msgHello osOpenFails, Call.write msgHello osGood, Call.hup]
    msgHello osOpenFails (by decide) (by decide)

/-! ## The flag `bHadError` -/

/-- C9, counterexample: "in every reachable state the flag is set only if
the handle is unopened" is false.  After an open failure and a following
call whose `open` and `write` succeed, the handle of `fifo` is open on
descriptor 3 and the flag is still set: the successful `open` did not clear
it. -/
theorem flag_set_while_open_counterexample :
    ¬ (∀ (calls : List Call),
        (finalState fifo calls).bHadError = true → (finalState fifo calls).fd = -1) ∧
    (finalState fifo [Call.write msgHello osOpenFails, Call.write msgHello osGood]).fd = 3 ∧
    (finalState fifo [Call.write msgHello osOpenFails, Call.write msgHello osGood]).bHadError =
      true ∧
    (preparePipe 3 (finalState fifo [Call.write msgHello osOpenFails])).pData.bHadError =
      true := by
  refine ⟨?_, by decide, by decide, by decide⟩
  intro h
  have h1 := h [Call.write msgHello osOpenFails, Call.write msgHello osGood] (by decide)
  revert h1
  decide

/-- C9, amended: in every state reachable from a freshly configured
instance by write and reset calls, under every behaviour of `open` and
`write`, the flag is set exactly when a report of a failed open has been
emitted since construction, whether the handle is open or not.  The flag is
never cleared: once set it stays set over every sequence of calls.  For
every value returned by `open` and every instance state, an `open` attempt
that leaves the handle open (the returned value is non-negative as a
`short`, which every descriptor `0 .. SHRT_MAX` is) stores that `short` in
the handle, emits no report and leaves the flag as it was; an `open` attempt
that leaves the handle unopened sets the flag. -/
theorem flag_set_iff_open_reported (pipe tplName : Option String) (calls : List Call) :
    ((finalState (newInstance pipe tplName) calls).bHadError = true ↔
      openReportCount (fullTrace (newInstance pipe tplName) calls) = 1) ∧
    (∀ (pData : instanceData) (more : List Call),
      pData.bHadError = true → (finalState pData more).bHadError = true) ∧
    (∀ (openRet : Int) (pData : instanceData),
      preparePipe openRet pData =
        (if toShort openRet < 0 then
          { iRet := rsRetVal.RS_RET_OK,
            pData := { pData with fd := -1, bHadError := true },
            trace := Event.sysOpen pData.pipe ::
              (if pData.bHadError then []
               else [Event.LogError LogCode.RS_RET_NO_FILE_ACCESS pData.pipe]) }
        else
          { iRet := rsRetVal.RS_RET_OK,
            pData := { pData with fd := toShort openRet },
            trace := [Event.sysOpen pData.pipe] })) ∧
    (∀ (openRet : Int) (pData : instanceData),
      ((preparePipe openRet pData).pData.fd ≠ -1 ↔ 0 ≤ toShort openRet) ∧
      (0 ≤ toShort openRet →
        (preparePipe openRet pData).pData.fd = toShort openRet ∧
        (preparePipe openRet pData).pData.bHadError = pData.bHadError ∧
        reportCount (preparePipe openRet pData).trace = 0) ∧
      (toShort openRet < 0 →
        (preparePipe openRet pData).pData.fd = -1 ∧
        (preparePipe openRet pData).pData.bHadError = true) ∧
      (0 ≤ openRet → openRet ≤ SHRT_MAX →
        (preparePipe openRet pData).pData = { pData with fd := openRet } ∧
        reportCount (preparePipe openRet pData).trace = 0)) := by
  have hprep : ∀ (openRet : Int) (pData : instanceData),
      preparePipe openRet pData =
        (if toShort openRet < 0 then
          { iRet := rsRetVal.RS_RET_OK,
            pData := { pData with fd := -1, bHadError := true },
            trace := Event.sysOpen pData.pipe ::
              (if pData.bHadError then []
               else [Event.LogError LogCode.RS_RET_NO_FILE_ACCESS pData.pipe]) }
        else
          { iRet := rsRetVal.RS_RET_OK,
            pData := { pData with fd := toShort openRet },
            trace := [Event.sysOpen pData.pipe] }) := by
    intro openRet pData
    obtain ⟨p, t, fd, b⟩ := pData
    by_cases ho : toShort openRet < 0
    · cases b <;> simp [preparePipe, ho]
    · simp [preparePipe, ho]
  refine ⟨?_, ?_, hprep, ?_⟩
  · have hbal := fullTrace_openReport_balance calls (newInstance pipe tplName)
    have hb0 : (newInstance pipe tplName).bHadError = false := rfl
    rw [hb0] at hbal
    cases hb : (finalState (newInstance pipe tplName) calls).bHadError
    · rw [hb] at hbal
      have h0 : openReportCount (fullTrace (newInstance pipe tplName) calls) = 0 := by
        simpa using hbal
      simp [h0]
    · rw [hb] at hbal
      have h1 : openReportCount (fullTrace (newInstance pipe tplName) calls) = 1 := by
        simpa using hbal
      simp [h1]
  · intro pData more hb
    have hbal := fullTrace_openReport_balance more pData
    rw [if_pos hb] at hbal
    cases hf : (finalState pData more).bHadError
    · rw [hf] at hbal
      simp at hbal
    · rfl
  · intro openRet pData
    refine ⟨?_, ?_, ?_, ?_⟩
    · by_cases ho : toShort openRet < 0
      · have hno : ¬ (0 ≤ toShort openRet) := by omega
        simp [hprep, ho, hno]
      · have hyes : 0 ≤ toShort openRet := by omega
        have hne : toShort openRet ≠ -1 := by omega
        simp [hprep, ho, hyes, hne]
    · intro ho
      have ho2 : ¬ (toShort openRet < 0) := by omega
      simp [hprep, ho2, reportCount, Event.isReport]
    · intro ho
      simp [hprep, ho]
    · intro h0 h1
      have hs := toShort_of_fits openRet h0 h1
      have ho2 : ¬ (openRet < 0) := by omega
      simp [hprep, hs, ho2, reportCount, Event.isReport]

/-- Witness for the amended C9: an `open` that returns descriptor 3 on an
instance whose flag is set stores 3 in the handle and leaves the flag set. -/
theorem flag_set_iff_open_reported_witness :
    (preparePipe 3 { fifo with bHadError := true }).pData =
      { ({ fifo with bHadError := true } : instanceData) with fd := 3 } ∧
    reportCount (preparePipe 3 { fifo with bHadError := true }).trace = 0 :=
  ((flag_set_iff_open_reported none none []).2.2.2 3 { fifo with bHadError := true }).2.2.2
    (by decide) (by decide)

/-! ## The width of the handle -/

/-- C10, the code at the failing inputs.  When `open` returns descriptor
32768 on the unused instance `fifo`, the `short` handle receives `-32768`:
the call is treated as a failed open (report, `RS_RET_SUSPENDED`), no
`write` is issued although the answer would accept the message, the handle is
`-1` and neither this call nor `freeInstance` closes descriptor 32768.  When
`open` returns 65539 the handle is 3 and the `write` goes to descriptor 3. -/
theorem descriptor_above_short_max :
    toShort 32768 = -32768 ∧
    (writePipe msgHello osHighFd fifo).iRet = rsRetVal.RS_RET_SUSPENDED ∧
    (writePipe msgHello osHighFd fifo).pData.fd = -1 ∧
    (writePipe msgHello osHighFd fifo).trace =
      [Event.sysOpen fifo.pipe, Event.LogError LogCode.RS_RET_NO_FILE_ACCESS fifo.pipe] ∧
    freeInstance (writePipe msgHello osHighFd fifo).pData = [] ∧
    (writePipe msgHello osWrapFd fifo).pData.fd = 3 ∧
    (writePipe msgHello osWrapFd fifo).trace =
      [Event.sysOpen fifo.pipe, Event.sysWrite 3 msgHello] := by
  refine ⟨by decide, by decide, by decide, ?_, by decide, by decide, ?_⟩
  · rfl
  · rfl

end Ompipe
